import Mathlib

/-!
Verification of the room-session and image-synchronization engine of the
guessing photo game (source: src/lib/game-server.js).

The JavaScript server state is shallowly embedded:
* JS Map objects become association lists with Map.set replacement
  semantics (alset / alget below); JS Set objects become duplicate-free
  lists with insertion (setInsert).
* A field that the source leaves undefined until later (room.guesses is
  created only by the start-game handler) is an Option.
* Code paths that would throw a TypeError at runtime (dereferencing
  undefined) are modelled as Except.error.
* Math.random outcomes are passed in explicitly: the shuffle takes a
  function giving, for each position i, the chosen index (which the
  source draws in [0, i]); the room-code generator takes six draws
  in [0, 31].
-/

set_option linter.deprecated false

namespace GuessingGame

/-- Game phases, mirroring the GameState object of the source. -/
inductive GameState
  | LOBBY
  | PLAYING
  | RESULTS
  | GAME_OVER
deriving DecidableEq, Repr

/-- A player record, mirroring the player objects built by the create-room
and join-room handlers.  Opaque uuid identities and socket identifiers are
modelled as naturals; image payloads as strings. -/
structure Player where
  id : Nat
  socketId : Nat
  name : String
  isHost : Bool
  imageCount : Nat
  score : Nat
  images : List String
deriving DecidableEq, Repr

/-- One deck entry: the image payload tagged with the owning player's
identity and display name (startImageSync). -/
structure ImageRecord where
  image : String
  ownerId : Nat
  ownerName : String
deriving DecidableEq, Repr

/-- Association-list lookup, modelling JS Map.get (none = undefined). -/
def alget {K V : Type} [DecidableEq K] (k : K) : List (K × V) → Option V
  | [] => none
  | (k1, v) :: rest => if k1 = k then some v else alget k rest

/-- Association-list update, modelling JS Map.set: replaces the binding of
an existing key, otherwise appends a new one. -/
def alset {K V : Type} [DecidableEq K] (k : K) (v : V) : List (K × V) → List (K × V)
  | [] => [(k, v)]
  | (k1, v1) :: rest => if k1 = k then (k, v) :: rest else (k1, v1) :: alset k v rest

/-- JS Set.add: inserts an element if not already present. -/
def setInsert {α : Type} [DecidableEq α] (a : α) (s : List α) : List α :=
  if a ∈ s then s else s ++ [a]

/-- A room, mirroring the room object of the create-room handler.
`guesses` is an Option because the source only creates room.guesses inside
the start-game handler; before that it is undefined. -/
structure Room where
  id : String
  players : List Player
  gameState : GameState
  currentImageIndex : Nat
  allImages : List ImageRecord
  syncComplete : Bool
  syncProgress : List (Nat × List Int)
  guesses : Option (List (Int × List (Nat × Nat)))
deriving DecidableEq, Repr

/-- Acknowledgment sent through a command callback. -/
inductive Ack
  | success
  | error (msg : String)
deriving DecidableEq, Repr

/-- The alphabet of generateRoomCode (A-Z without I and O, digits 2-9). -/
def codeChars : List Char := "ABCDEFGHJKLMNPQRSTUVWXYZ23456789".toList

/-- generateRoomCode: six independent draws of Math.floor(Math.random()*32)
indexing into the alphabet. -/
def generateRoomCode (rand : Fin 6 → Fin 32) : String :=
  String.mk ((List.finRange 6).map (fun i => codeChars.getD (rand i).val 'A'))

/-- The room object built by the create-room handler: the creator is the
sole player and the host; guesses is left undefined. -/
def initialRoom (roomId : String) (pid sock : Nat) : Room :=
  { id := roomId
    players := [{ id := pid, socketId := sock, name := "", isHost := true,
                  imageCount := 0, score := 0, images := [] }]
    gameState := GameState.LOBBY
    currentImageIndex := 0
    allImages := []
    syncComplete := false
    syncProgress := []
    guesses := none }

/-- The create-room handler at registry level: generates a code and stores
the new room under it with Map.set semantics (an existing room under the
same code is replaced; the source performs no collision check). -/
def createRoom (reg : List (String × Room)) (rand : Fin 6 → Fin 32) (sock pid : Nat) :
    List (String × Room) × String :=
  let roomId := generateRoomCode rand
  (alset roomId (initialRoom roomId pid sock) reg, roomId)

/-- The join-room handler restricted to a resolved room: outside LOBBY the
join is refused and the room is untouched; otherwise a non-host player is
appended. -/
def joinRoom (room : Room) (sock pid : Nat) (name : String) : Room :=
  if room.gameState ≠ GameState.LOBBY then room
  else { room with players := room.players ++
          [{ id := pid, socketId := sock, name := name, isHost := false,
             imageCount := 0, score := 0, images := [] }] }

/-- Updates the first list entry satisfying the condition, modelling the
source pattern of Array.prototype.find followed by in-place mutation of
the found object. -/
def updateFirst (f : Player → Player) (cond : Player → Bool) : List Player → List Player
  | [] => []
  | p :: rest => if cond p then f p :: rest else p :: updateFirst f cond rest

/-- The update-name handler: sets the name of the player bound to the
socket, if any. -/
def updateName (room : Room) (sock : Nat) (name : String) : Room :=
  { room with players := (updateFirst (fun p => { p with name := name })
      (fun p => p.socketId = sock) room.players) }

/-- The reconnect-to-room handler's state effect: rebinds the socket
identifier of the player with the given identity, if present. -/
def reconnectToRoom (room : Room) (pid newSock : Nat) : Room :=
  { room with players := (updateFirst (fun p => { p with socketId := newSock })
      (fun p => p.id = pid) room.players) }

/-- Deck assembly (startImageSync lines 342-351): concatenation, in player
order, of each player's images tagged with the owner's id and name. -/
def buildDeck (players : List Player) : List ImageRecord :=
  players.flatMap (fun p => p.images.map (fun img =>
    { image := img, ownerId := p.id, ownerName := p.name }))

/-- One Fisher-Yates step: exchange positions i and j when both exist. -/
def swapAt {α : Type} (l : List α) (i j : Nat) : List α :=
  match l.get? i, l.get? j with
  | some a, some b => (l.set i b).set j a
  | _, _ => l

/-- The descending shuffle loop: for i from the given start down to 1,
swap position i with position r i (the source draws r i in [0, i]). -/
def fyAux {α : Type} (r : Nat → Nat) : List α → Nat → List α
  | l, 0 => l
  | l, i + 1 => fyAux r (swapAt l (i + 1) (r (i + 1))) i

/-- The in-place shuffle of startImageSync (lines 354-357). -/
def fisherYates {α : Type} (l : List α) (r : Nat → Nat) : List α :=
  fyAux r l (l.length - 1)

/-- startImageSync: rebuilds the deck from the players' submitted images
and shuffles it.  The staggered batch broadcasts carry no state. -/
def startImageSync (room : Room) (r : Nat → Nat) : Room :=
  { room with allImages := fisherYates (buildDeck room.players) r }

/-- The submit-images handler: stores the submitted list on the sender,
then, level-triggered, starts the image sync whenever every player has
imageCount = 10.  The third component records whether startImageSync ran. -/
def submitImages (room : Room) (sock : Nat) (images : List String) (r : Nat → Nat) :
    Room × Ack × Bool :=
  match room.players.find? (fun p => p.socketId = sock) with
  | none => (room, Ack.error "Player not found", false)
  | some _ =>
    let room1 := { room with players :=
      (updateFirst (fun p => { p with images := images, imageCount := images.length })
        (fun p => p.socketId = sock) room.players) }
    if room1.players.all (fun p => p.imageCount = 10) then
      (startImageSync room1 r, Ack.success, true)
    else
      (room1, Ack.success, false)

/-- The images-synced handler: set-inserts the acknowledged batch index
(whatever its value) into the sender's acknowledgment set, then, if every
player's set has size at least the deck length and the completion flag is
not yet set, sets the flag and emits sync-complete (second component). -/
def imagesSynced (room : Room) (sock : Nat) (batchIndex : Int) : Room × Bool :=
  match room.players.find? (fun p => p.socketId = sock) with
  | none => (room, false)
  | some p =>
    let prog1 := alset p.id (setInsert batchIndex ((alget p.id room.syncProgress).getD []))
      room.syncProgress
    let totalImages := room.allImages.length
    let allSynced := room.players.all
      (fun q => totalImages ≤ ((alget q.id prog1).getD []).length)
    if allSynced && !room.syncComplete then
      ({ room with syncProgress := prog1, syncComplete := true }, true)
    else
      ({ room with syncProgress := prog1 }, false)

/-- The start-game handler: host-only, refused while syncComplete is
false; on success resets scores, round index and the guess map and
transitions to PLAYING.  The third component records whether the first
round was dispatched. -/
def startGame (room : Room) (sock : Nat) : Room × Ack × Bool :=
  match room.players.find? (fun p => p.socketId = sock) with
  | none => (room, Ack.error "Only the host can start the game", false)
  | some p =>
    if !p.isHost then (room, Ack.error "Only the host can start the game", false)
    else if !room.syncComplete then (room, Ack.error "Images not synced yet", false)
    else
      ({ room with
          gameState := GameState.PLAYING
          currentImageIndex := 0
          guesses := some []
          players := room.players.map (fun q => { q with score := 0 }) },
        Ack.success, true)

/-- One per-player entry of the round-results broadcast. -/
structure RoundResult where
  playerId : Nat
  name : String
  score : Nat
  guessedCorrectly : Bool
deriving DecidableEq, Repr

/-- processRoundResults: reads the guess bucket of the current round and
the current deck entry, awards 100 points to every player whose recorded
guess equals the true owner, and reports whether this was the last round.
Paths on which the source dereferences undefined (room.guesses missing,
the bucket of the current round missing while players iterate, or the
current deck entry missing) are Except.error. -/
def processRoundResults (room : Room) : Except Unit (Room × List RoundResult × Bool) :=
  let imageIndex := room.currentImageIndex
  match room.guesses with
  | none => Except.error ()
  | some gmap =>
    match room.allImages.get? imageIndex with
    | none => Except.error ()
    | some currentImage =>
      match alget (Int.ofNat imageIndex) gmap with
      | none =>
        if room.players.isEmpty then
          Except.ok (room, [], decide (room.allImages.length - 1 ≤ imageIndex))
        else Except.error ()
      | some roundGuesses =>
        let results := room.players.map (fun p =>
          { playerId := p.id, name := p.name
            score := if alget p.id roundGuesses = some currentImage.ownerId then 100 else 0
            guessedCorrectly :=
              decide (alget p.id roundGuesses = some currentImage.ownerId) })
        let players1 := room.players.map (fun p =>
          if alget p.id roundGuesses = some currentImage.ownerId then
            { p with score := p.score + 100 }
          else p)
        Except.ok ({ room with players := players1 }, results,
          decide (room.allImages.length - 1 ≤ imageIndex))

/-- The submit-guess handler: records the sender's guess in the bucket of
the submitted image index (creating the bucket if absent), then, if that
bucket's size has reached the live player count, runs round resolution.
The Bool reports whether resolution fired; reading an undefined
room.guesses, or a resolution that dereferences undefined, is
Except.error. -/
def submitGuess (room : Room) (sock : Nat) (imageIndex : Int) (guessed : Nat) :
    Except Unit (Room × Bool) :=
  match room.players.find? (fun p => p.socketId = sock) with
  | none => Except.ok (room, false)
  | some p =>
    match room.guesses with
    | none => Except.error ()
    | some gmap =>
      let bucket1 := alset p.id guessed ((alget imageIndex gmap).getD [])
      let room1 := { room with guesses := some (alset imageIndex bucket1 gmap) }
      if room.players.length ≤ bucket1.length then
        match processRoundResults room1 with
        | Except.error e => Except.error e
        | Except.ok (room2, _, _) => Except.ok (room2, true)
      else
        Except.ok (room1, false)

/-- The new-game handler: host-only; resets the room to LOBBY, clears the
deck, sync state and guesses, and resets every player's score and images. -/
def newGame (room : Room) (sock : Nat) : Room :=
  match room.players.find? (fun p => p.socketId = sock) with
  | none => room
  | some p =>
    if p.isHost then
      { room with
        gameState := GameState.LOBBY
        currentImageIndex := 0
        allImages := []
        syncComplete := false
        syncProgress := []
        guesses := some []
        players := room.players.map (fun q =>
          { q with score := 0, imageCount := 0, images := [] }) }
    else room

/-- Sets the isHost flag of the first player, modelling the host failover
assignment players[0].isHost = true. -/
def promoteHead : List Player → List Player
  | [] => []
  | p :: rest => { p with isHost := true } :: rest

/-- The disconnect grace-timer action: if the disconnected player still
exists and still carries the socket identifier captured at disconnect
time, remove them; delete the room (none) if that empties it; otherwise,
if the removed player was host, promote the earliest remaining player. -/
def graceRemove (room : Room) (pid sockAtDisconnect : Nat) : Option Room :=
  match room.players.find? (fun p => p.id = pid) with
  | none => some room
  | some p =>
    if p.socketId = sockAtDisconnect then
      let remaining := room.players.filter (fun q => ¬ q.id = pid)
      if remaining.isEmpty then none
      else if p.isHost then some { room with players := promoteHead remaining }
      else some { room with players := remaining }
    else some room

/-- Number of players whose isHost flag is set. -/
def hostCount (ps : List Player) : Nat := ps.countP (fun p => p.isHost)

/-- One externally triggered transition of a room: every handler of the
source that can change a live room's state.  Join requires a process-fresh
player identity (uuidv4).  Deleting the room (graceRemove = none) leaves
the relation; submit-guess steps only along non-crashing executions. -/
inductive Step : Room → Room → Prop
  | join (room : Room) (sock pid : Nat) (name : String)
      (hfresh : pid ∉ room.players.map Player.id) :
      Step room (joinRoom room sock pid name)
  | rename (room : Room) (sock : Nat) (name : String) :
      Step room (updateName room sock name)
  | rebind (room : Room) (pid newSock : Nat) :
      Step room (reconnectToRoom room pid newSock)
  | images (room : Room) (sock : Nat) (imgs : List String) (r : Nat → Nat) :
      Step room (submitImages room sock imgs r).1
  | synced (room : Room) (sock : Nat) (b : Int) :
      Step room (imagesSynced room sock b).1
  | start (room : Room) (sock : Nat) :
      Step room (startGame room sock).1
  | guess (room : Room) (sock : Nat) (idx : Int) (g : Nat) (room2 : Room) (fired : Bool)
      (h : submitGuess room sock idx g = Except.ok (room2, fired)) :
      Step room room2
  | reset (room : Room) (sock : Nat) :
      Step room (newGame room sock)
  | grace (room : Room) (pid sck : Nat) (room2 : Room)
      (h : graceRemove room pid sck = some room2) :
      Step room room2

/-- Room states reachable from room creation through handler steps. -/
inductive Reachable : Room → Prop
  | create (rand : Fin 6 → Fin 32) (sock pid : Nat) :
      Reachable (initialRoom (generateRoomCode rand) pid sock)
  | step {r r2 : Room} : Reachable r → Step r r2 → Reachable r2

/-- Structural well-formedness maintained by every handler: exactly one
host, and pairwise-distinct player identities. -/
def RoomWF (room : Room) : Prop :=
  hostCount room.players = 1 ∧ (room.players.map Player.id).Nodup

/- Concrete scenario data used by counterexamples and witnesses. -/

/-- C1 scenario: present players B (host) and C; player A (id 1) already
removed, but A's guess for round 0 is still recorded. -/
def c1PlayerB : Player :=
  { id := 2, socketId := 2, name := "B", isHost := true,
    imageCount := 10, score := 0, images := [] }

/-- C1 scenario: present player C, who has not guessed. -/
def c1PlayerC : Player :=
  { id := 3, socketId := 3, name := "C", isHost := false,
    imageCount := 10, score := 0, images := [] }

/-- C1 scenario room: PLAYING, round 0, bucket 0 holds only the removed
player A's guess. -/
def c1Room : Room :=
  { id := "R"
    players := [c1PlayerB, c1PlayerC]
    gameState := GameState.PLAYING
    currentImageIndex := 0
    allImages := [{ image := "imgA", ownerId := 1, ownerName := "A" }]
    syncComplete := true
    syncProgress := []
    guesses := some [(0, [(1, 9)])] }

/-- C1 scenario room after B's guess: both guesses were wrong (owner is
the removed player A), so scores are unchanged. -/
def c1RoomAfter : Room := { c1Room with guesses := some [(0, [(1, 9), (2, 9)])] }

/-- C6 scenario: player 1 guessed the true owner, player 2 did not. -/
def c6Ci : ImageRecord := { image := "i0", ownerId := 1, ownerName := "A" }

/-- C6 scenario guess bucket of round 0. -/
def c6Rg : List (Nat × Nat) := [(1, 1), (2, 3)]

/-- C6 scenario guess map. -/
def c6Gmap : List (Int × List (Nat × Nat)) := [(0, c6Rg)]

/-- C6 scenario room at resolution time. -/
def c6Room : Room :=
  { id := "R"
    players := [{ id := 1, socketId := 1, name := "A", isHost := true,
                  imageCount := 10, score := 50, images := [] },
                { id := 2, socketId := 2, name := "B", isHost := false,
                  imageCount := 10, score := 0, images := [] }]
    gameState := GameState.PLAYING
    currentImageIndex := 0
    allImages := [c6Ci]
    syncComplete := true
    syncProgress := []
    guesses := some c6Gmap }

/-- C7 scenario: a room already registered under code AAAAAA. -/
def c7OldRoom : Room := initialRoom "AAAAAA" 1 1

/-- C7 scenario registry. -/
def c7Reg : List (String × Room) := [("AAAAAA", c7OldRoom)]

/-- C8 scenario: a fresh one-player room. -/
def c8Room : Room := initialRoom "CODE12" 1 1

/-- C8 scenario: a ten-image submission. -/
def c8Imgs : List String := ["a", "b", "c", "d", "e", "f", "g", "h", "i", "j"]

/-- C9 failing input: a PLAYING room, round 0, one player, empty guess
map, about to receive a guess for image index 5. -/
def c9Room : Room :=
  { id := "R"
    players := [{ id := 1, socketId := 1, name := "P", isHost := true,
                  imageCount := 10, score := 0, images := [] }]
    gameState := GameState.PLAYING
    currentImageIndex := 0
    allImages := [{ image := "img", ownerId := 1, ownerName := "P" }]
    syncComplete := true
    syncProgress := []
    guesses := some [] }

/-- C10 scenario: deck of length 2; player 1 acknowledged the two real
batches, player 2 has acknowledged the bogus index -5 and is about to
acknowledge the bogus index -6. -/
def c10Room : Room :=
  { id := "R"
    players := [{ id := 1, socketId := 1, name := "P1", isHost := true,
                  imageCount := 1, score := 0, images := ["x"] },
                { id := 2, socketId := 2, name := "P2", isHost := false,
                  imageCount := 1, score := 0, images := ["y"] }]
    gameState := GameState.LOBBY
    currentImageIndex := 0
    allImages := [{ image := "x", ownerId := 1, ownerName := "P1" },
                  { image := "y", ownerId := 2, ownerName := "P2" }]
    syncComplete := false
    syncProgress := [(1, [0, 1]), (2, [-5])]
    guesses := none }

/-- C3 witness players: two players with two images each. -/
def c3Players : List Player :=
  [{ id := 1, socketId := 1, name := "A", isHost := true,
     imageCount := 2, score := 0, images := ["a1", "a2"] },
   { id := 2, socketId := 2, name := "B", isHost := false,
     imageCount := 2, score := 0, images := ["b1", "b2"] }]

/-- Counts emissions of the sync-complete broadcast over a sequence of
images-synced acknowledgments (socket, batchIndex). -/
def syncEmitCount (room : Room) : List (Nat × Int) → Nat
  | [] => 0
  | (sock, b) :: rest =>
    (if (imagesSynced room sock b).2 then 1 else 0) +
      syncEmitCount (imagesSynced room sock b).1 rest

/- General lemmas about the map and set embeddings. -/

theorem alget_alset_self {K V : Type} [DecidableEq K] (k : K) (v : V) (l : List (K × V)) :
    alget k (alset k v l) = some v := by
  induction l with
  | nil => simp [alget, alset]
  | cons h t ih =>
    obtain ⟨k1, v1⟩ := h
    by_cases hk : k1 = k <;> simp [alget, alset, hk, ih]

theorem alget_alset_ne {K V : Type} [DecidableEq K] {k k2 : K} (h : k2 ≠ k) (v : V)
    (l : List (K × V)) : alget k2 (alset k v l) = alget k2 l := by
  have h2 : ¬ k = k2 := fun e => h (Eq.symm e)
  induction l with
  | nil => simp [alget, alset, h2]
  | cons hd t ih =>
    obtain ⟨k1, v1⟩ := hd
    by_cases hk : k1 = k <;> simp [alget, alset, hk, h2, ih]

theorem mem_setInsert_self {α : Type} [DecidableEq α] (a : α) (s : List α) :
    a ∈ setInsert a s := by
  unfold setInsert
  split
  · assumption
  · simp

/- C5.  start-game before sync completion. -/

/-- C5: for every room with syncComplete false, a start-game command from
the host is acknowledged with the error "Images not synced yet", the room
is left entirely unchanged, and no round is dispatched. -/
theorem c5_start_game_blocked (room : Room) (sock : Nat) (p : Player)
    (hp : room.players.find? (fun q => q.socketId = sock) = some p)
    (hhost : p.isHost = true)
    (hsync : room.syncComplete = false) :
    startGame room sock = (room, Ack.error "Images not synced yet", false) := by
  unfold startGame
  rw [hp]
  simp [hhost, hsync]

/-- C5 witness: a freshly created room (syncComplete is false) whose host
attempts to start the game. -/
theorem c5_start_game_blocked_witness :
    startGame (initialRoom "CODE12" 1 1) 1 =
      (initialRoom "CODE12" 1 1, Ack.error "Images not synced yet", false) :=
  c5_start_game_blocked (initialRoom "CODE12" 1 1) 1
    { id := 1, socketId := 1, name := "", isHost := true,
      imageCount := 0, score := 0, images := [] } rfl rfl rfl

/- C9.  submit-guess with a stray round index crashes round resolution. -/

/-- C9: at the failing input (PLAYING room, one player, round 0, guess
submitted for image index 5) the submit-guess handler triggers round
resolution, which dereferences the missing guess bucket of the current
round: the execution ends in the modelled TypeError instead of recording
or no-opping. -/
theorem c9_submit_guess_crash : submitGuess c9Room 1 5 1 = Except.error () := rfl

/- C7.  create-room does not check the registry for collisions. -/

/-- C7 counterexample: when the six random draws all pick index 0, the
generated code AAAAAA equals the code of an existing room, and the
existing room is silently replaced in the registry. -/
theorem c7_counterexample :
    (createRoom c7Reg (fun _ => (0 : Fin 32)) 2 2).2 = "AAAAAA" ∧
    "AAAAAA" ∈ c7Reg.map Prod.fst ∧
    alget "AAAAAA" (createRoom c7Reg (fun _ => (0 : Fin 32)) 2 2).1 ≠ some c7OldRoom := by
  refine ⟨rfl, by simp [c7Reg], ?_⟩
  decide

/-- C7 amended: create-room stores the new room under the generated code
unconditionally; the new room is found under that code, and every room
registered under a different code is preserved.  The stored code is fresh
only when the random outcome happens to avoid all existing codes. -/
theorem c7_fresh_code_amended (reg : List (String × Room)) (rand : Fin 6 → Fin 32)
    (sock pid : Nat) :
    alget (generateRoomCode rand) (createRoom reg rand sock pid).1 =
      some (initialRoom (generateRoomCode rand) pid sock) ∧
    ∀ c : String, c ≠ generateRoomCode rand →
      alget c (createRoom reg rand sock pid).1 = alget c reg := by
  refine ⟨alget_alset_self _ _ _, fun c hc => alget_alset_ne hc _ _⟩

/-- C7 amended witness: instantiation on the collision registry. -/
theorem c7_fresh_code_amended_witness :
    alget (generateRoomCode (fun _ => (0 : Fin 32)))
        (createRoom c7Reg (fun _ => (0 : Fin 32)) 2 2).1 =
      some (initialRoom (generateRoomCode (fun _ => (0 : Fin 32))) 2 2) ∧
    ∀ c : String, c ≠ generateRoomCode (fun _ => (0 : Fin 32)) →
      alget c (createRoom c7Reg (fun _ => (0 : Fin 32)) 2 2).1 = alget c c7Reg :=
  c7_fresh_code_amended c7Reg (fun _ => (0 : Fin 32)) 2 2

/- C8.  image sync retriggers on resubmission. -/

/-- C8 counterexample: in a one-player room, a first ten-image submission
triggers startImageSync, and a second ten-image submission - arriving
while every player already has imageCount = 10 - triggers it again,
rebuilding and reshuffling the deck. -/
theorem c8_counterexample :
    (submitImages c8Room 1 c8Imgs (fun _ => 0)).2.2 = true ∧
    (submitImages (submitImages c8Room 1 c8Imgs (fun _ => 0)).1 1 c8Imgs (fun _ => 0)).2.2
      = true :=
  ⟨rfl, rfl⟩

/-- C8 amended: startImageSync runs on exactly those submit-images
commands after which every player has imageCount = 10 - the condition is
level-triggered with no once-per-game guard, so a resubmission while all
players hold 10 images reruns deck assembly and the shuffle. -/
theorem c8_trigger_level (room : Room) (sock : Nat) (imgs : List String) (r : Nat → Nat)
    (p : Player)
    (hp : room.players.find? (fun q => q.socketId = sock) = some p) :
    ((submitImages room sock imgs r).2.2 = true ↔
      (updateFirst (fun q => { q with images := imgs, imageCount := imgs.length })
          (fun q => q.socketId = sock) room.players).all
        (fun q => q.imageCount = 10) = true) := by
  unfold submitImages
  rw [hp]
  by_cases hall : (updateFirst (fun q => { q with images := imgs, imageCount := imgs.length })
      (fun q => q.socketId = sock) room.players).all (fun q => q.imageCount = 10) = true <;>
    simp [hall]

/-- C8 amended witness: the one-player room with a ten-image submission. -/
theorem c8_trigger_level_witness :
    ((submitImages c8Room 1 c8Imgs (fun _ => 0)).2.2 = true ↔
      (updateFirst (fun q => { q with images := c8Imgs, imageCount := c8Imgs.length })
          (fun q => q.socketId = 1) c8Room.players).all
        (fun q => q.imageCount = 10) = true) :=
  c8_trigger_level c8Room 1 c8Imgs (fun _ => 0)
    { id := 1, socketId := 1, name := "", isHost := true,
      imageCount := 0, score := 0, images := [] } rfl

/- C1.  round-resolution trigger condition. -/

/-- C1 counterexample: in the scenario room the removed player A's stale
guess still counts - B's guess makes the round-0 bucket reach size 2,
equal to the live player count, so resolution fires although the present
player C has no recorded guess for the current round. -/
theorem c1_counterexample :
    submitGuess c1Room 2 0 9 = Except.ok (c1RoomAfter, true) ∧
    c1PlayerC ∈ c1Room.players ∧
    alget c1PlayerC.id ((alget (0 : Int) (c1RoomAfter.guesses.getD [])).getD []) = none := by
  refine ⟨?_, by simp [c1Room], rfl⟩
  rfl

/-- C1 amended: after a submit-guess from a bound player, round resolution
fires exactly when the updated guess bucket of the submitted image index
has at least as many entries as there are currently-present players;
guesses recorded by since-removed players persist in the bucket and count
toward this threshold. -/
theorem c1_resolution_threshold (room : Room) (sock : Nat) (idx : Int) (g : Nat)
    (p : Player) (gmap : List (Int × List (Nat × Nat))) (room2 : Room) (fired : Bool)
    (hp : room.players.find? (fun q => q.socketId = sock) = some p)
    (hg : room.guesses = some gmap)
    (hok : submitGuess room sock idx g = Except.ok (room2, fired)) :
    (fired = true ↔
      room.players.length ≤ (alset p.id g ((alget idx gmap).getD [])).length) := by
  unfold submitGuess at hok
  rw [hp, hg] at hok
  simp only at hok
  split at hok
  · rename_i hle
    cases hpr : processRoundResults
        { room with guesses := some (alset idx (alset p.id g ((alget idx gmap).getD [])) gmap) } with
    | error e => rw [hpr] at hok; simp at hok
    | ok triple =>
      obtain ⟨r2, res, last⟩ := triple
      rw [hpr] at hok
      simp at hok
      simp [hok.2, hle]
  · rename_i hlt
    simp at hok
    simp [hok.2, hlt]

/-- C1 amended witness: instantiation on the scenario room. -/
theorem c1_resolution_threshold_witness :
    (true = true ↔
      c1Room.players.length ≤ (alset c1PlayerB.id 9 ((alget (0 : Int) [((0 : Int), [(1, 9)])]).getD [])).length) :=
  c1_resolution_threshold c1Room 2 0 9 c1PlayerB [(0, [(1, 9)])] c1RoomAfter true
    rfl rfl rfl

/- C10.  arbitrary batch indices count toward sync completion. -/

/-- C10: the images-synced handler accepts any batch index from a bound
player - the index is set-inserted into the player's acknowledgment set
with no validity check, and once every player's set (so enlarged) reaches
the deck length while the completion flag is unset, sync-complete fires. -/
theorem c10_arbitrary_batch_counted (room : Room) (sock : Nat) (b : Int) (p : Player)
    (hp : room.players.find? (fun q => q.socketId = sock) = some p)
    (hflag : room.syncComplete = false)
    (hall : room.players.all (fun q => room.allImages.length ≤
      ((alget q.id (alset p.id (setInsert b ((alget p.id room.syncProgress).getD []))
        room.syncProgress)).getD []).length) = true) :
    (imagesSynced room sock b).2 = true ∧
    b ∈ (alget p.id (imagesSynced room sock b).1.syncProgress).getD [] := by
  unfold imagesSynced
  rw [hp]
  simp only [hflag, hall]
  simp [alget_alset_self, mem_setInsert_self]

/-- C10 witness: a player acknowledging only bogus indices (-5 and then
-6, neither a deck position) is counted as fully synced and the
acknowledgment fires sync-complete. -/
theorem c10_arbitrary_batch_counted_witness :
    (imagesSynced c10Room 2 (-6)).2 = true ∧
    (-6 : Int) ∈ (alget (2 : Nat) (imagesSynced c10Room 2 (-6)).1.syncProgress).getD [] :=
  c10_arbitrary_batch_counted c10Room 2 (-6)
    { id := 2, socketId := 2, name := "P2", isHost := false,
      imageCount := 1, score := 0, images := ["y"] }
    rfl rfl (by decide)

/- C2.  sync-complete fires at most once. -/

theorem imagesSynced_emit_flag (room : Room) (sock : Nat) (b : Int) :
    (imagesSynced room sock b).2 = true → (imagesSynced room sock b).1.syncComplete = true := by
  unfold imagesSynced
  cases hf : room.players.find? (fun p => p.socketId = sock) with
  | none => simp
  | some p =>
    dsimp only
    split
    · intro _; rfl
    · simp

theorem imagesSynced_flag_preserved (room : Room) (sock : Nat) (b : Int)
    (h : room.syncComplete = true) :
    (imagesSynced room sock b).1.syncComplete = true ∧ (imagesSynced room sock b).2 = false := by
  unfold imagesSynced
  cases hf : room.players.find? (fun p => p.socketId = sock) with
  | none => exact ⟨h, rfl⟩
  | some p => simp [h]

theorem syncEmitCount_of_complete (evs : List (Nat × Int)) :
    ∀ room : Room, room.syncComplete = true → syncEmitCount room evs = 0 := by
  induction evs with
  | nil => intro room _; rfl
  | cons ev rest ih =>
    intro room h
    obtain ⟨sock, b⟩ := ev
    have hp := imagesSynced_flag_preserved room sock b h
    unfold syncEmitCount
    rw [hp.2]
    simpa using ih _ hp.1

/-- C2: over any sequence of images-synced acknowledgments, the
sync-complete broadcast is emitted at most once - once some
acknowledgment sets the completion flag, no later acknowledgment emits it
again (and a room whose flag is already set never emits at all). -/
theorem c2_sync_complete_at_most_once (room : Room) (evs : List (Nat × Int)) :
    syncEmitCount room evs ≤ 1 := by
  induction evs generalizing room with
  | nil => simp [syncEmitCount]
  | cons ev rest ih =>
    obtain ⟨sock, b⟩ := ev
    unfold syncEmitCount
    by_cases he : (imagesSynced room sock b).2 = true
    · rw [he]
      have hflag := imagesSynced_emit_flag room sock b he
      simp [syncEmitCount_of_complete rest _ hflag]
    · simp only [he, if_neg]
      simpa using ih (imagesSynced room sock b).1

/- C6.  deterministic scoring at round resolution. -/

/-- C6: at round resolution, every present player whose recorded guess
equals the round image's true owner receives exactly +100 cumulative and a
result entry marked correct with 100 points; every other present player
(different guess or none recorded) receives +0 and a result entry marked
incorrect with 0 points. -/
theorem c6_scoring_deterministic (room : Room) (gmap : List (Int × List (Nat × Nat)))
    (rg : List (Nat × Nat)) (ci : ImageRecord)
    (h1 : room.guesses = some gmap)
    (h2 : room.allImages.get? room.currentImageIndex = some ci)
    (h3 : alget (Int.ofNat room.currentImageIndex) gmap = some rg) :
    ∃ room1 results last, processRoundResults room = Except.ok (room1, results, last) ∧
      ∀ k p, room.players.get? k = some p →
        ∃ p1 res, room1.players.get? k = some p1 ∧ results.get? k = some res ∧
          (alget p.id rg = some ci.ownerId →
            p1.score = p.score + 100 ∧ res.score = 100 ∧ res.guessedCorrectly = true) ∧
          (¬ alget p.id rg = some ci.ownerId →
            p1.score = p.score ∧ res.score = 0 ∧ res.guessedCorrectly = false) := by
  unfold processRoundResults
  simp only [h1, h2, h3]
  refine ⟨_, _, _, rfl, ?_⟩
  intro k p hk
  refine ⟨(if alget p.id rg = some ci.ownerId then { p with score := p.score + 100 } else p),
    { playerId := p.id, name := p.name,
      score := if alget p.id rg = some ci.ownerId then 100 else 0,
      guessedCorrectly := decide (alget p.id rg = some ci.ownerId) }, ?_, ?_, ?_, ?_⟩
  · rw [List.get?_map, hk]
    rfl
  · rw [List.get?_map, hk]
    rfl
  · intro hcase
    simp [hcase]
  · intro hcase
    simp [hcase]

/-- C6 witness: a two-player room where player 1 guessed the owner and
player 2 did not. -/
theorem c6_scoring_deterministic_witness :
    ∃ room1 results last, processRoundResults c6Room = Except.ok (room1, results, last) ∧
      ∀ k p, c6Room.players.get? k = some p →
        ∃ p1 res, room1.players.get? k = some p1 ∧ results.get? k = some res ∧
          (alget p.id c6Rg = some c6Ci.ownerId →
            p1.score = p.score + 100 ∧ res.score = 100 ∧ res.guessedCorrectly = true) ∧
          (¬ alget p.id c6Rg = some c6Ci.ownerId →
            p1.score = p.score ∧ res.score = 0 ∧ res.guessedCorrectly = false) :=
  c6_scoring_deterministic c6Room c6Gmap c6Rg c6Ci rfl rfl rfl

/- C3.  the shuffled deck is a permutation of the concatenation. -/

theorem cons_set_perm {α : Type} (t : List α) (m : Nat) (b c : α)
    (h : t.get? m = some b) : List.Perm (b :: t.set m c) (c :: t) := by
  induction t generalizing m with
  | nil => cases m <;> exact Option.noConfusion h
  | cons d t2 ih =>
    cases m with
    | zero =>
      injection h with hdb
      subst hdb
      exact List.Perm.swap c d t2
    | succ n =>
      have h1 : List.Perm (b :: d :: t2.set n c) (d :: b :: t2.set n c) :=
        List.Perm.swap d b (t2.set n c)
      have h3 : List.Perm (d :: b :: t2.set n c) (d :: c :: t2) := (ih n h).cons d
      have h4 : List.Perm (d :: c :: t2) (c :: d :: t2) := List.Perm.swap c d t2
      exact (h1.trans h3).trans h4

theorem set_set_perm_of_get {α : Type} (l : List α) (i j : Nat) (a b : α)
    (hi : l.get? i = some a) (hj : l.get? j = some b) :
    List.Perm ((l.set i b).set j a) l := by
  induction l generalizing i j with
  | nil => cases i <;> exact Option.noConfusion hi
  | cons c t ih =>
    cases i with
    | zero =>
      injection hi with hca
      subst hca
      cases j with
      | zero =>
        injection hj with hcb
        subst hcb
        exact List.Perm.refl _
      | succ m =>
        exact cons_set_perm t m b c hj
    | succ n =>
      cases j with
      | zero =>
        injection hj with hcb
        subst hcb
        exact cons_set_perm t n a c hi
      | succ m =>
        exact (ih n m hi hj).cons c

theorem swapAt_perm {α : Type} (l : List α) (i j : Nat) : List.Perm (swapAt l i j) l := by
  unfold swapAt
  cases hi : l.get? i with
  | none => exact List.Perm.refl l
  | some a =>
    cases hj : l.get? j with
    | none => exact List.Perm.refl l
    | some b => exact set_set_perm_of_get l i j a b hi hj

theorem fyAux_perm {α : Type} (r : Nat → Nat) (i : Nat) :
    ∀ l : List α, List.Perm (fyAux r l i) l := by
  induction i with
  | zero => intro l; exact List.Perm.refl l
  | succ n ih =>
    intro l
    exact (ih (swapAt l (n + 1) (r (n + 1)))).trans (swapAt_perm l (n + 1) (r (n + 1)))

theorem fisherYates_perm {α : Type} (l : List α) (r : Nat → Nat) :
    List.Perm (fisherYates l r) l :=
  fyAux_perm r (l.length - 1) l

/-- C3: for every outcome of the random draws (each draw for position i
lies in [0, i], as Math.floor(Math.random()*(i+1)) guarantees), the deck
produced by deck assembly and the in-place shuffle carries the same
multiset of (image, owner) pairs as the plain concatenation of every
player's submitted images. -/
theorem c3_deck_multiset_preserved (players : List Player) (r : Nat → Nat)
    (hr : ∀ i, r i ≤ i) :
    ((fisherYates (buildDeck players) r).map (fun e => (e.image, e.ownerId)) :
        Multiset (String × Nat)) =
      ((buildDeck players).map (fun e => (e.image, e.ownerId)) :
        Multiset (String × Nat)) :=
  Multiset.coe_eq_coe.mpr ((fisherYates_perm (buildDeck players) r).map _)

/-- C3 witness: two players with two images each and the draw that always
picks index 0. -/
theorem c3_deck_multiset_preserved_witness :
    (∀ i : Nat, (fun _ : Nat => 0) i ≤ i) ∧
    ((fisherYates (buildDeck c3Players) (fun _ => 0)).map (fun e => (e.image, e.ownerId)) :
        Multiset (String × Nat)) =
      ((buildDeck c3Players).map (fun e => (e.image, e.ownerId)) :
        Multiset (String × Nat)) :=
  ⟨fun i => Nat.zero_le i,
    c3_deck_multiset_preserved c3Players (fun _ => 0) (fun i => Nat.zero_le i)⟩

/- C4.  host uniqueness across all reachable room states. -/

theorem hostCount_map (ps : List Player) (f : Player → Player)
    (h : ∀ p, (f p).isHost = p.isHost) : hostCount (ps.map f) = hostCount ps := by
  unfold hostCount
  rw [List.countP_map]
  exact List.countP_congr (fun a _ => by simp [h])

theorem ids_map (ps : List Player) (f : Player → Player)
    (h : ∀ p, (f p).id = p.id) : (ps.map f).map Player.id = ps.map Player.id := by
  rw [List.map_map]
  exact List.map_congr_left (fun a _ => h a)

theorem hostCount_updateFirst (ps : List Player) (f : Player → Player) (c : Player → Bool)
    (h : ∀ p, (f p).isHost = p.isHost) : hostCount (updateFirst f c ps) = hostCount ps := by
  induction ps with
  | nil => rfl
  | cons p t ih =>
    unfold updateFirst hostCount
    unfold hostCount at ih
    split <;> simp [List.countP_cons, h, ih]

theorem ids_updateFirst (ps : List Player) (f : Player → Player) (c : Player → Bool)
    (h : ∀ p, (f p).id = p.id) : (updateFirst f c ps).map Player.id = ps.map Player.id := by
  induction ps with
  | nil => rfl
  | cons p t ih =>
    unfold updateFirst
    split <;> simp [h, ih]

theorem find_id_filter_perm (ps : List Player) (pid : Nat) (p : Player)
    (hnd : (ps.map Player.id).Nodup)
    (hf : ps.find? (fun q => q.id = pid) = some p) :
    List.Perm ps (p :: ps.filter (fun q => ¬ q.id = pid)) := by
  induction ps with
  | nil => exact Option.noConfusion hf
  | cons a t ih =>
    by_cases ha : a.id = pid
    · have hfa : (a :: t).find? (fun q => decide (q.id = pid)) = some a :=
        List.find?_cons_of_pos t (by simp [ha])
      have hpa : p = a := by
        rw [hfa] at hf
        injection hf with hf
        exact hf.symm
      have hane : a.id ∉ t.map Player.id := by
        rw [List.map_cons] at hnd
        exact (List.nodup_cons.mp hnd).1
      have hflt : ∀ q ∈ t, ¬ q.id = pid := by
        intro q hq hqp
        exact hane (by rw [ha, ← hqp]; exact List.mem_map_of_mem Player.id hq)
      have hfilter : (a :: t).filter (fun q => ¬ q.id = pid) = t := by
        have h1 : (a :: t).filter (fun q => ¬ q.id = pid) =
            t.filter (fun q => ¬ q.id = pid) := by
          rw [List.filter_cons]
          simp [ha]
        rw [h1]
        apply List.filter_eq_self.mpr
        intro q hq
        simpa using hflt q hq
      rw [hpa, hfilter]
    · have hfa : (a :: t).find? (fun q => decide (q.id = pid)) = t.find? (fun q => decide (q.id = pid)) :=
        List.find?_cons_of_neg t (by simp [ha])
      rw [hfa] at hf
      have hndt : (t.map Player.id).Nodup := by
        rw [List.map_cons] at hnd
        exact (List.nodup_cons.mp hnd).2
      have hperm := ih hndt hf
      have hfilter : (a :: t).filter (fun q => ¬ q.id = pid) =
          a :: t.filter (fun q => ¬ q.id = pid) := by
        rw [List.filter_cons]
        simp [ha]
      rw [hfilter]
      exact (hperm.cons a).trans (List.Perm.swap p a _)

theorem processRoundResults_players (room r2 : Room) (res : List RoundResult) (last : Bool)
    (h : processRoundResults room = Except.ok (r2, res, last)) :
    hostCount r2.players = hostCount room.players ∧
    r2.players.map Player.id = room.players.map Player.id := by
  unfold processRoundResults at h
  cases hg : room.guesses with
  | none => rw [hg] at h; exact Except.noConfusion h
  | some gmap =>
    rw [hg] at h
    dsimp only at h
    cases hi : room.allImages.get? room.currentImageIndex with
    | none => rw [hi] at h; exact Except.noConfusion h
    | some ci =>
      rw [hi] at h
      dsimp only at h
      cases hb : alget (Int.ofNat room.currentImageIndex) gmap with
      | none =>
        rw [hb] at h
        dsimp only at h
        split at h
        · injection h with h2
          injection h2 with h3 h4
          subst h3
          exact ⟨rfl, rfl⟩
        · exact Except.noConfusion h
      | some rg =>
        rw [hb] at h
        dsimp only at h
        injection h with h2
        injection h2 with h3 h4
        subst h3
        constructor
        · exact hostCount_map _ _
            (fun p => by by_cases hc : alget p.id rg = some ci.ownerId <;> simp [hc])
        · exact ids_map _ _
            (fun p => by by_cases hc : alget p.id rg = some ci.ownerId <;> simp [hc])

theorem nodup_of_ids_eq {ps qs : List Player}
    (h : ps.map Player.id = qs.map Player.id) (hq : (qs.map Player.id).Nodup) :
    (ps.map Player.id).Nodup := by
  rw [h]
  exact hq

theorem wf_joinRoom (room : Room) (sock pid : Nat) (name : String)
    (hfresh : pid ∉ room.players.map Player.id) (hw : RoomWF room) :
    RoomWF (joinRoom room sock pid name) := by
  unfold joinRoom
  split
  · exact hw
  · have h1 := hw.1
    unfold hostCount at h1
    constructor
    · show hostCount (room.players ++ [_]) = 1
      unfold hostCount
      rw [List.countP_append]
      simpa [List.countP_cons] using h1
    · show ((room.players ++ [_]).map Player.id).Nodup
      rw [List.map_append, List.nodup_append]
      refine ⟨hw.2, by simp, ?_⟩
      intro x hx hx2
      simp only [List.map_cons, List.map_nil, List.mem_singleton] at hx2
      subst hx2
      exact hfresh hx

theorem wf_updateName (room : Room) (sock : Nat) (name : String) (hw : RoomWF room) :
    RoomWF (updateName room sock name) :=
  ⟨(hostCount_updateFirst room.players (fun p => { p with name := name })
      (fun p => decide (p.socketId = sock)) (fun p => rfl)).trans hw.1,
   nodup_of_ids_eq (ids_updateFirst room.players (fun p => { p with name := name })
      (fun p => decide (p.socketId = sock)) (fun p => rfl)) hw.2⟩

theorem wf_reconnectToRoom (room : Room) (pid newSock : Nat) (hw : RoomWF room) :
    RoomWF (reconnectToRoom room pid newSock) :=
  ⟨(hostCount_updateFirst room.players (fun p => { p with socketId := newSock })
      (fun p => decide (p.id = pid)) (fun p => rfl)).trans hw.1,
   nodup_of_ids_eq (ids_updateFirst room.players (fun p => { p with socketId := newSock })
      (fun p => decide (p.id = pid)) (fun p => rfl)) hw.2⟩

theorem wf_submitImages (room : Room) (sock : Nat) (imgs : List String) (r : Nat → Nat)
    (hw : RoomWF room) : RoomWF (submitImages room sock imgs r).1 := by
  have hpair : hostCount (updateFirst
        (fun q => { q with images := imgs, imageCount := imgs.length })
        (fun q => decide (q.socketId = sock)) room.players) = 1 ∧
      ((updateFirst (fun q => { q with images := imgs, imageCount := imgs.length })
        (fun q => decide (q.socketId = sock)) room.players).map Player.id).Nodup :=
    ⟨(hostCount_updateFirst room.players
        (fun q => { q with images := imgs, imageCount := imgs.length })
        (fun q => decide (q.socketId = sock)) (fun q => rfl)).trans hw.1,
     nodup_of_ids_eq (ids_updateFirst room.players
        (fun q => { q with images := imgs, imageCount := imgs.length })
        (fun q => decide (q.socketId = sock)) (fun q => rfl)) hw.2⟩
  unfold submitImages
  cases hf : room.players.find? (fun p => p.socketId = sock) with
  | none => exact hw
  | some p =>
    simp only
    split
    · exact hpair
    · exact hpair

theorem wf_imagesSynced (room : Room) (sock : Nat) (b : Int) (hw : RoomWF room) :
    RoomWF (imagesSynced room sock b).1 := by
  unfold imagesSynced
  cases hf : room.players.find? (fun p => p.socketId = sock) with
  | none => exact hw
  | some p =>
    simp only
    split
    · exact hw
    · exact hw

theorem wf_startGame (room : Room) (sock : Nat) (hw : RoomWF room) :
    RoomWF (startGame room sock).1 := by
  unfold startGame
  cases hf : room.players.find? (fun p => p.socketId = sock) with
  | none => exact hw
  | some p =>
    simp only
    split
    · exact hw
    · split
      · exact hw
      · exact ⟨(hostCount_map room.players (fun q => { q with score := 0 })
            (fun q => rfl)).trans hw.1,
          nodup_of_ids_eq (ids_map room.players (fun q => { q with score := 0 })
            (fun q => rfl)) hw.2⟩

theorem wf_submitGuess (room room2 : Room) (sock : Nat) (idx : Int) (g : Nat) (fired : Bool)
    (h : submitGuess room sock idx g = Except.ok (room2, fired)) (hw : RoomWF room) :
    RoomWF room2 := by
  unfold submitGuess at h
  cases hf : room.players.find? (fun p => p.socketId = sock) with
  | none =>
    rw [hf] at h
    injection h with h2
    injection h2 with h3 h4
    subst h3
    exact hw
  | some p =>
    rw [hf] at h
    cases hg : room.guesses with
    | none => rw [hg] at h; exact Except.noConfusion h
    | some gmap =>
      rw [hg] at h
      simp only at h
      split at h
      · cases hpr : processRoundResults
            { room with guesses := some (alset idx (alset p.id g ((alget idx gmap).getD [])) gmap) } with
        | error e => rw [hpr] at h; exact Except.noConfusion h
        | ok triple =>
          obtain ⟨r2, res, last⟩ := triple
          rw [hpr] at h
          injection h with h2
          injection h2 with h3 h4
          subst h3
          have hpl := processRoundResults_players _ _ _ _ hpr
          exact ⟨hpl.1.trans hw.1, nodup_of_ids_eq hpl.2 hw.2⟩
      · injection h with h2
        injection h2 with h3 h4
        subst h3
        exact hw

theorem wf_newGame (room : Room) (sock : Nat) (hw : RoomWF room) :
    RoomWF (newGame room sock) := by
  unfold newGame
  cases hf : room.players.find? (fun p => p.socketId = sock) with
  | none => exact hw
  | some p =>
    simp only
    split
    · exact ⟨(hostCount_map room.players
          (fun q => { q with score := 0, imageCount := 0, images := [] })
          (fun q => rfl)).trans hw.1,
        nodup_of_ids_eq (ids_map room.players
          (fun q => { q with score := 0, imageCount := 0, images := [] })
          (fun q => rfl)) hw.2⟩
    · exact hw

theorem wf_graceRemove (room room2 : Room) (pid sck : Nat)
    (h : graceRemove room pid sck = some room2) (hw : RoomWF room) : RoomWF room2 := by
  unfold graceRemove at h
  cases hf : room.players.find? (fun q => q.id = pid) with
  | none =>
    rw [hf] at h
    injection h with h3
    subst h3
    exact hw
  | some p =>
    rw [hf] at h
    simp only at h
    split at h
    · split at h
      · exact Option.noConfusion h
      · rename_i hne
        have hperm := find_id_filter_perm room.players pid p hw.2 hf
        have h1 := hw.1
        unfold hostCount at h1
        have hcnt : List.countP (fun q => q.isHost) room.players =
            List.countP (fun q => q.isHost)
              (room.players.filter (fun q => ¬ q.id = pid)) +
              (if p.isHost = true then 1 else 0) := by
          rw [hperm.countP_eq, List.countP_cons]
        have hndrem : ((room.players.filter (fun q => ¬ q.id = pid)).map Player.id).Nodup :=
          hw.2.sublist ((List.filter_sublist _).map _)
        split at h
        · rename_i hhost
          injection h with h3
          subst h3
          have hrem0 : List.countP (fun q => q.isHost)
              (room.players.filter (fun q => ¬ q.id = pid)) = 0 := by
            rw [h1, if_pos hhost] at hcnt
            omega
          constructor
          · show hostCount (promoteHead (room.players.filter (fun q => ¬ q.id = pid))) = 1
            cases hrem : room.players.filter (fun q => ¬ q.id = pid) with
            | nil => rw [hrem] at hne; exact absurd rfl hne
            | cons d rest =>
              rw [hrem, List.countP_cons] at hrem0
              show hostCount ({ d with isHost := true } :: rest) = 1
              unfold hostCount
              rw [List.countP_cons]
              rw [if_pos (show ((fun q => q.isHost) ({ d with isHost := true } : Player)) = true from rfl)]
              omega
          · show ((promoteHead (room.players.filter (fun q => ¬ q.id = pid))).map Player.id).Nodup
            cases hrem : room.players.filter (fun q => ¬ q.id = pid) with
            | nil => rw [hrem] at hne; exact absurd rfl hne
            | cons d rest =>
              rw [hrem] at hndrem
              unfold promoteHead
              rw [List.map_cons]
              rw [List.map_cons] at hndrem
              exact hndrem
        · rename_i hhost
          injection h with h3
          subst h3
          constructor
          · show hostCount (room.players.filter (fun q => ¬ q.id = pid)) = 1
            unfold hostCount
            rw [h1, if_neg hhost] at hcnt
            omega
          · exact hndrem
    · injection h with h3
      subst h3
      exact hw

theorem step_wf {r r2 : Room} (hw : RoomWF r) (hs : Step r r2) : RoomWF r2 := by
  cases hs with
  | join sock pid name hfresh => exact wf_joinRoom r sock pid name hfresh hw
  | rename sock name => exact wf_updateName r sock name hw
  | rebind pid newSock => exact wf_reconnectToRoom r pid newSock hw
  | images sock imgs rr => exact wf_submitImages r sock imgs rr hw
  | synced sock b => exact wf_imagesSynced r sock b hw
  | start sock => exact wf_startGame r sock hw
  | guess sock idx g room3 fired h => exact wf_submitGuess _ _ _ _ _ _ h hw
  | reset sock => exact wf_newGame r sock hw
  | grace pid sck room3 h => exact wf_graceRemove _ _ _ _ h hw

theorem reachable_wf {room : Room} (h : Reachable room) : RoomWF room := by
  induction h with
  | create rand sock pid =>
    constructor
    · rfl
    · simp [initialRoom]
  | step hr hs ih => exact step_wf ih hs

/-- C4: in every reachable room state at most one player is host, and a
grace-period removal that leaves the room alive always leaves exactly one
host among the remaining players (create-room makes the creator sole
host, join-room appends non-hosts, and host removal promotes the earliest
remaining player). -/
theorem c4_host_unique (room : Room) (h : Reachable room) :
    hostCount room.players ≤ 1 ∧
    ∀ pid sck room2, graceRemove room pid sck = some room2 →
      hostCount room2.players = 1 :=
  ⟨Nat.le_of_eq (reachable_wf h).1,
   fun pid sck room2 hg =>
     (reachable_wf (h.step (Step.grace room pid sck room2 hg))).1⟩

/-- C4 witness: a freshly created room. -/
theorem c4_host_unique_witness :
    hostCount (initialRoom (generateRoomCode (fun _ => (0 : Fin 32))) 1 1).players ≤ 1 ∧
    ∀ pid sck room2,
      graceRemove (initialRoom (generateRoomCode (fun _ => (0 : Fin 32))) 1 1) pid sck =
        some room2 →
      hostCount room2.players = 1 :=
  c4_host_unique _ (Reachable.create (fun _ => (0 : Fin 32)) 1 1)

end GuessingGame
